import Mathlib

/-!
Shallow embedding of the credential lifecycle manager of the whatsappmcp
repository: the class `OAuth2TokenManager` in `oauth_manager.py` together with
the token helpers in `src/whatsapp_mcp/utils.py`.

Modelling conventions:
- Machine time (`time.time()`) is an explicit `now : Int` parameter (seconds).
- Network I/O is an explicit oracle argument: each HTTP POST the code may make
  receives an `HttpResult` describing what the `try` block around it observes
  (a parsed JSON body, an `httpx.HTTPStatusError` whose error body is either
  processable or unprocessable by the status-error handler, or any other
  exception).
  Every operation also reports how many POSTs to the provider it attempted,
  so "no network I/O" is the statement `netCalls = 0`.
- The on-disk token cache is an explicit `Option FileData` value threaded
  through the operations; `none` stands for a missing, unreadable or malformed
  file (all three make `json.load` fail or `os.path.exists` return false, and
  the code treats them alike).  Whether a file write or delete succeeds is an
  explicit boolean oracle (`writeOk` / `removeOk`); failures are swallowed by
  the code's `except: pass`.
- JSON fields are `Option` values; a JSON `null` and an absent key are
  conflated (both `none`), matching how the claims exercise `dict.get`.
- Python truthiness of the optional string and number attributes is modelled
  explicitly (`None` and `""` / `0` are falsy).
-/

/-- Python truthiness of an optional string: `None` and `""` are falsy. -/
def truthyStr : Option String → Bool
  | none => false
  | some s => !s.isEmpty

/-- Python truthiness of an optional number: `None` and `0` are falsy. -/
def truthyInt : Option Int → Bool
  | none => false
  | some x => x != 0

/-- A provider token-endpoint JSON response body, as consumed via `dict.get`. -/
structure TokenResponse where
  access_token : Option String
  expires_in : Option Int
  refresh_token : Option String
deriving DecidableEq, Repr

/-- What one `httpx` POST inside a `try` block yields: a parsed body, an
`httpx.HTTPStatusError`, or any other exception.  Status errors are split by
what `exchange_code_for_token`'s two-clause handler does with the error body:
`httpError` carries the message that
`error_data.get("error", {}).get("message", str(e))` extracts when the body is
empty or a JSON object whose `error` value is absent or itself an object;
`httpErrorBadBody` stands for a status error with a non-empty body that is not
such an object (non-JSON, a non-object JSON value, or a non-object `error`
value), where `e.response.json()` or the `.get` chain raises inside the
handler — an exception a sibling `except` clause does not catch, though the
single-clause `except Exception` of the other operations still does. -/
inductive HttpResult where
  | ok (body : TokenResponse)
  | httpError (message : String)
  | httpErrorBadBody (message : String)
  | exn (message : String)
deriving DecidableEq, Repr

/-- `HttpResult.ok` discriminator. -/
def HttpResult.isOk : HttpResult → Bool
  | .ok _ => true
  | _ => false

/-- Contents of the JSON cache file `.oauth_token_cache.json` when it exists
and parses; each key may be absent or `null`. -/
structure FileData where
  access_token : Option String
  expires_at : Option Int
  refresh_token : Option String
deriving DecidableEq, Repr

/-- The `OAuth2TokenManager` instance state: the env-derived configuration
attributes plus the three mutable token attributes (`_access_token`,
`_token_expires_at`, `_refresh_token`). -/
structure Manager where
  client_id : Option String
  client_secret : Option String
  redirect_uri : String
  scopes : String
  access_token : Option String
  token_expires_at : Option Int
  refresh_token : Option String
deriving DecidableEq, Repr

/-- `OAuth2TokenManager.is_configured`: `bool(self.client_id and self.client_secret)`. -/
def is_configured (m : Manager) : Bool :=
  truthyStr m.client_id && truthyStr m.client_secret

/-- `OAuth2TokenManager._load_cached_token` composed with `__init__`'s field
initialisation: the three token attributes start as `None` and are then read
from the cache file when it exists and parses.  Returns
`(access_token, expires_at, refresh_token)`. -/
def load_cached_token (file : Option FileData) :
    Option String × Option Int × Option String :=
  match file with
  | none => (none, none, none)
  | some d => (d.access_token, d.expires_at, d.refresh_token)

/-- `OAuth2TokenManager.__init__`: configuration from the environment, token
attributes from the cache file. -/
def mkManager (cid csec : Option String) (ruri scps : String)
    (file : Option FileData) : Manager :=
  let t := load_cached_token file
  ⟨cid, csec, ruri, scps, t.1, t.2.1, t.2.2⟩

/-- `OAuth2TokenManager._save_token`: assigns `_access_token` and
`_token_expires_at := now + expires_in` unconditionally (and `_refresh_token`
only when the argument is truthy), then best-effort writes the cache file;
`writeOk` abstracts whether the write succeeds, and a failure is swallowed
(`except: pass`), leaving the previous file contents in place. -/
def save_token (m : Manager) (file : Option FileData) (now : Int)
    (access_token : Option String) (expires_in : Int)
    (refresh_token : Option String) (writeOk : Bool) :
    Manager × Option FileData :=
  let m' := { m with
    access_token := access_token,
    token_expires_at := some (now + expires_in),
    refresh_token := if truthyStr refresh_token then refresh_token
                     else m.refresh_token }
  let file' := if writeOk then some ⟨access_token, some (now + expires_in), refresh_token⟩
               else file
  (m', file')

/-- Result of `get_authorization_url`: either the `ValueError` raised when
unconfigured, or the authorization-dialog endpoint with its query parameters
(kept structured; percent-encoding is elided since no claim concerns it). -/
inductive UrlResult where
  | notConfigured (message : String)
  | url (endpoint : String) (params : List (String × String))
deriving DecidableEq, Repr

/-- `OAuth2TokenManager.get_authorization_url`. -/
def get_authorization_url (m : Manager) (st : Option String) : UrlResult :=
  if is_configured m then
    .url "https://www.facebook.com/v18.0/dialog/oauth"
      [("client_id", m.client_id.getD ""),
       ("redirect_uri", m.redirect_uri),
       ("scope", m.scopes),
       ("response_type", "code"),
       ("state", if truthyStr st then st.getD "" else "whatsapp_mcp_oauth")]
  else
    .notConfigured "OAuth2 not configured. Set WHATSAPP_CLIENT_ID and WHATSAPP_CLIENT_SECRET"

/-- `OAuth2TokenManager._exchange_for_long_lived_token`: `none` without a
network call when unconfigured; otherwise one POST, whose parsed body is
returned on success and whose every failure yields `none`.  The second
component counts the POSTs attempted. -/
def exchange_for_long_lived_token (m : Manager) (net : HttpResult) :
    Option TokenResponse × Nat :=
  if is_configured m then
    match net with
    | .ok body => (some body, 1)
    | .httpError _ => (none, 1)
    | .httpErrorBadBody _ => (none, 1)
    | .exn _ => (none, 1)
  else (none, 0)

/-- The dict returned by `exchange_code_for_token`: either
`{access_token, expires_in, success: True}` or `{success: False, error}`. -/
inductive ExchangeResult where
  | success (access_token : Option String) (expires_in : Int)
  | failure (error : String)
deriving DecidableEq, Repr

/-- Whether a python call returned a value or let an exception escape. -/
inductive PyOutcome (α : Type) where
  | raised (message : String)
  | returned (value : α)
deriving DecidableEq, Repr

/-- The (up to) two POSTs `exchange_code_for_token` may make: the code
exchange and the long-lived upgrade. -/
structure ExchangeNet where
  step1 : HttpResult
  step2 : HttpResult
deriving DecidableEq, Repr

/-- Everything observable about one run of `exchange_code_for_token`. -/
structure ExchangeRun where
  outcome : PyOutcome ExchangeResult
  manager : Manager
  file : Option FileData
  netCalls : Nat
deriving DecidableEq, Repr

/-- `OAuth2TokenManager.exchange_code_for_token`.  The unconfigured guard
raises `ValueError` before the `try` block, so that error escapes to the
caller.  Inside the `try`, a status error with a processable body and any
other exception become `{success: False, ...}` results, but a status error
with an unprocessable body (`httpErrorBadBody`) makes the
`except httpx.HTTPStatusError` handler itself raise, and that exception is
not caught by the sibling `except Exception` clause — it escapes to the
caller too.  On step-1 success the long-lived upgrade is attempted and, when
it returns a body, its fields supersede the short-lived ones per key. -/
def exchange_code_for_token (m : Manager) (file : Option FileData) (now : Int)
    (writeOk : Bool) (_code : String) (net : ExchangeNet) : ExchangeRun :=
  if is_configured m then
    match net.step1 with
    | .ok body =>
      let access_token := body.access_token
      let expires_in := body.expires_in.getD 3600
      let ll := exchange_for_long_lived_token m net.step2
      let tok := match ll.1 with
        | some u => (match u.access_token with
          | some a => some a
          | none => access_token)
        | none => access_token
      let exp := match ll.1 with
        | some u => (match u.expires_in with
          | some e => e
          | none => expires_in)
        | none => expires_in
      let p := save_token m file now tok exp body.refresh_token writeOk
      ⟨.returned (.success tok exp), p.1, p.2, 1 + ll.2⟩
    | .httpError msg => ⟨.returned (.failure msg), m, file, 1⟩
    | .httpErrorBadBody msg => ⟨.raised msg, m, file, 1⟩
    | .exn msg => ⟨.returned (.failure msg), m, file, 1⟩
  else ⟨.raised "OAuth2 not configured", m, file, 0⟩

/-- Everything observable about one run of `refresh_token`. -/
structure RefreshTokRun where
  result : Bool
  manager : Manager
  file : Option FileData
  netCalls : Nat
deriving DecidableEq, Repr

/-- `OAuth2TokenManager.refresh_token`: the refresh-token-keyed long-lived
exchange.  Returns `False` without a network call when `_refresh_token` is
falsy; otherwise one POST, saving `expires_in` defaulted to 3600 on success. -/
def refresh_token_op (m : Manager) (file : Option FileData) (now : Int)
    (writeOk : Bool) (net : HttpResult) : RefreshTokRun :=
  if truthyStr m.refresh_token then
    match net with
    | .ok body =>
      let p := save_token m file now body.access_token (body.expires_in.getD 3600)
        m.refresh_token writeOk
      ⟨true, p.1, p.2, 1⟩
    | .httpError _ => ⟨false, m, file, 1⟩
    | .httpErrorBadBody _ => ⟨false, m, file, 1⟩
    | .exn _ => ⟨false, m, file, 1⟩
  else ⟨false, m, file, 0⟩

/-- `OAuth2TokenManager.REFRESH_BUFFER_SECONDS = 1 * 24 * 3600`. -/
def REFRESH_BUFFER_SECONDS : Int := 1 * 24 * 3600

/-- Everything observable about one run of `refresh_if_needed`. -/
structure RefreshRun where
  manager : Manager
  file : Option FileData
  netCalls : Nat
deriving DecidableEq, Repr

/-- `OAuth2TokenManager.refresh_if_needed`: no-op when no (truthy) token or
expiry is held, when the token is still comfortably valid, or when
unconfigured; otherwise performs the long-lived exchange keyed off the current
access token and saves its result when it carries a truthy token, with
`expires_in` defaulted to 5184000. -/
def refresh_if_needed (m : Manager) (file : Option FileData) (now : Int)
    (writeOk : Bool) (net : HttpResult) : RefreshRun :=
  if !truthyStr m.access_token || !truthyInt m.token_expires_at then ⟨m, file, 0⟩
  else if now < m.token_expires_at.getD 0 - REFRESH_BUFFER_SECONDS then ⟨m, file, 0⟩
  else if !is_configured m then ⟨m, file, 0⟩
  else
    match exchange_for_long_lived_token m net with
    | (some body, c) =>
      if truthyStr body.access_token then
        ⟨(save_token m file now body.access_token (body.expires_in.getD 5184000)
            m.refresh_token writeOk).1,
         (save_token m file now body.access_token (body.expires_in.getD 5184000)
            m.refresh_token writeOk).2, c⟩
      else ⟨m, file, c⟩
    | (none, c) => ⟨m, file, c⟩

/-- `OAuth2TokenManager.get_access_token`: a pure read; both the fresh and the
stale branch return `self._access_token`. -/
def get_access_token (m : Manager) (now : Int) : Option String :=
  if truthyStr m.access_token && truthyInt m.token_expires_at then
    if now < m.token_expires_at.getD 0 - 300 then m.access_token
    else m.access_token
  else m.access_token

/-- `OAuth2TokenManager.set_access_token`: an unconditional `_save_token`
with no refresh token; the python default for `expires_in` is 3600. -/
def set_access_token (m : Manager) (file : Option FileData) (now : Int)
    (writeOk : Bool) (token : String) (expires_in : Int) :
    Manager × Option FileData :=
  save_token m file now (some token) expires_in none writeOk

/-- `OAuth2TokenManager.clear_token`: wipes the three attributes and
best-effort removes the cache file (`removeOk` abstracts `os.remove`
succeeding; a failure is swallowed). -/
def clear_token (m : Manager) (file : Option FileData) (removeOk : Bool) :
    Manager × Option FileData :=
  let m' := { m with access_token := none, token_expires_at := none,
                     refresh_token := none }
  let file' := match file with
    | some _ => if removeOk then none else file
    | none => none
  (m', file')

/-- What the single awaited callback interaction of `start_local_oauth_flow`
produces: a captured `code`, a callback hit without one (`ValueError` set on
the future), or the 300-second timeout. -/
inductive FlowEvent where
  | codeReceived (code : String)
  | missingCode
  | timeout
deriving DecidableEq, Repr

/-- How one run of `start_local_oauth_flow` ends. -/
inductive FlowOutcome where
  | raisedNotConfigured (message : String)
  | raisedTimeout (message : String)
  | raisedMissingCode (message : String)
  | raisedExchangeFailed (message : String)
  | raisedUncaught (message : String)
  | success (message : String)
deriving DecidableEq, Repr

/-- Everything observable about one run of `start_local_oauth_flow`;
`listenerStopped` records that no callback listener is left running at exit
(the `finally` block, or — on the unconfigured path — none was started). -/
structure FlowRun where
  outcome : FlowOutcome
  manager : Manager
  file : Option FileData
  listenerStopped : Bool
  netCalls : Nat
deriving DecidableEq, Repr

/-- The redirect URI `start_local_oauth_flow` forces for its duration. -/
def localCallbackUri (port : Nat) : String :=
  "http://localhost:" ++ toString port ++ "/callback"

/-- `OAuth2TokenManager.start_local_oauth_flow`.  The unconfigured guard
raises before the listener starts.  Otherwise `redirect_uri` is overridden to
the local callback URI, the flow awaits one `FlowEvent`, and only a
code-received run whose exchange returns (rather than raises) reaches the
statement restoring the original `redirect_uri`; an exception escaping the
exchange propagates without restoring it.  The `finally` block stops the
listener on every path. -/
def start_local_oauth_flow (m : Manager) (file : Option FileData) (now : Int)
    (writeOk : Bool) (port : Nat) (ev : FlowEvent) (net : ExchangeNet) :
    FlowRun :=
  if is_configured m then
    match ev with
    | .timeout =>
      ⟨.raisedTimeout "OAuth flow timed out. Please try again.",
        { m with redirect_uri := localCallbackUri port }, file, true, 0⟩
    | .missingCode =>
      ⟨.raisedMissingCode "No code found in callback",
        { m with redirect_uri := localCallbackUri port }, file, true, 0⟩
    | .codeReceived code =>
      match exchange_code_for_token { m with redirect_uri := localCallbackUri port }
          file now writeOk code net with
      | ⟨.returned (.success _ _), mm, ff, c⟩ =>
        ⟨.success "Successfully authenticated and token cached.",
          { mm with redirect_uri := m.redirect_uri }, ff, true, c⟩
      | ⟨.returned (.failure err), mm, ff, c⟩ =>
        ⟨.raisedExchangeFailed ("Failed to exchange token: " ++ err),
          { mm with redirect_uri := m.redirect_uri }, ff, true, c⟩
      | ⟨.raised msg, mm, ff, c⟩ =>
        ⟨.raisedUncaught msg, mm, ff, true, c⟩
  else
    ⟨.raisedNotConfigured
       "OAuth2 not configured. Set WHATSAPP_CLIENT_ID and WHATSAPP_CLIENT_SECRET",
      m, file, true, 0⟩

/-- The cache-file fallback inside `utils.has_valid_token`: when the manager
holds no token but the file parses and carries a truthy `access_token`, the
three attributes are assigned from the file in one block. -/
def utils_reload_from_file (m : Manager) (file : Option FileData) : Manager :=
  match file with
  | some d =>
    if truthyStr d.access_token then
      { m with access_token := d.access_token,
               token_expires_at := d.expires_at,
               refresh_token := d.refresh_token }
    else m
  | none => m

/-- `utils.get_valid_token`: `refresh_if_needed` then `get_access_token`. -/
def get_valid_token (m : Manager) (file : Option FileData) (now : Int)
    (writeOk : Bool) (net : HttpResult) :
    Option String × Manager × Option FileData :=
  let r := refresh_if_needed m file now writeOk net
  (get_access_token r.manager now, r.manager, r.file)

/-! ### Concrete fixtures used by counterexamples and witnesses -/

/-- A manager whose environment lacks both client credentials. -/
def mUnconfigured : Manager :=
  ⟨none, none, "http://localhost:8080/callback", "scopes", none, none, none⟩

/-- A fully configured manager holding a token and a custom redirect URI. -/
def mConfigured : Manager :=
  ⟨some "id", some "secret", "http://example.com/cb", "scopes",
   some "tok", some 1000000, some "rtok"⟩

/-- A configured manager holding both an access token and a refresh token. -/
def mWithRefresh : Manager :=
  ⟨some "id", some "secret", "u", "s", some "old", some 50, some "rtok"⟩

/-! ### System traces for the credential invariant

The credential invariant of the spec quantifies over every operation of the
manager's lifecycle, including construction that reloads a cache file written
by an earlier operation of the same system.  We therefore model the closed
system as a transition relation over `(manager, cache file)` states, whose
cache file is only ever produced by `_save_token` or removed by
`clear_token`, and prove the invariant for every reachable state. -/

/-- The claimed in-memory invariant: an `access_token` present always comes
with an `expires_at`. -/
def MemInv (m : Manager) : Prop :=
  m.access_token.isSome = true → m.token_expires_at.isSome = true

/-- Auxiliary invariant on the cache file: a file written by this system
always carries an `expires_at` (since `_save_token` always serializes one). -/
def FileInv (file : Option FileData) : Prop :=
  ∀ d, file = some d → d.expires_at.isSome = true

/-- The combined invariant on a `(manager, cache file)` state. -/
def SysInv (s : Manager × Option FileData) : Prop :=
  MemInv s.1 ∧ FileInv s.2

/-- One lifecycle operation of the credential manager, acting on a
`(manager, cache file)` state: construction (reloading the cache), the
cache-file fallback in `utils.has_valid_token`, the code exchange, both
refresh paths, the external-token override, `clear_token`, and the
interactive flow. -/
inductive Step : Manager × Option FileData → Manager × Option FileData → Prop where
  | construct (s : Manager × Option FileData) (cid csec : Option String)
      (ruri scps : String) :
      Step s (mkManager cid csec ruri scps s.2, s.2)
  | utilsReload (s : Manager × Option FileData) :
      Step s (utils_reload_from_file s.1 s.2, s.2)
  | exchange (s : Manager × Option FileData) (now : Int) (writeOk : Bool)
      (code : String) (net : ExchangeNet) :
      Step s ((exchange_code_for_token s.1 s.2 now writeOk code net).manager,
              (exchange_code_for_token s.1 s.2 now writeOk code net).file)
  | refresh (s : Manager × Option FileData) (now : Int) (writeOk : Bool)
      (net : HttpResult) :
      Step s ((refresh_if_needed s.1 s.2 now writeOk net).manager,
              (refresh_if_needed s.1 s.2 now writeOk net).file)
  | refreshTok (s : Manager × Option FileData) (now : Int) (writeOk : Bool)
      (net : HttpResult) :
      Step s ((refresh_token_op s.1 s.2 now writeOk net).manager,
              (refresh_token_op s.1 s.2 now writeOk net).file)
  | setTok (s : Manager × Option FileData) (now : Int) (writeOk : Bool)
      (token : String) (expires_in : Int) :
      Step s (set_access_token s.1 s.2 now writeOk token expires_in)
  | clear (s : Manager × Option FileData) (removeOk : Bool) :
      Step s (clear_token s.1 s.2 removeOk)
  | flow (s : Manager × Option FileData) (now : Int) (writeOk : Bool)
      (port : Nat) (ev : FlowEvent) (net : ExchangeNet) :
      Step s ((start_local_oauth_flow s.1 s.2 now writeOk port ev net).manager,
              (start_local_oauth_flow s.1 s.2 now writeOk port ev net).file)

/-- An initial state of the system: no token attributes and no cache file. -/
def InitState (s : Manager × Option FileData) : Prop :=
  s.1.access_token = none ∧ s.1.token_expires_at = none ∧ s.2 = none

/-- A state the closed system can reach from some initial state. -/
def ReachableState (s : Manager × Option FileData) : Prop :=
  ∃ s0, InitState s0 ∧ Relation.ReflTransGen Step s0 s

/-- A concrete reachable state used as witness: a fresh configured manager
after one `set_access_token`. -/
def s1c : Manager × Option FileData :=
  set_access_token (mkManager (some "id") (some "sec") "u" "s" none) none 0 true
    "tok" 3600

/-! ### Claims -/

/-- C10: `get_access_token` is a pure read returning the stored token on both
branches of its freshness comparison, so the result is absent exactly when no
token is stored and an expired token is still returned. -/
theorem C10_get_access_token_pure (m : Manager) (now : Int) :
    get_access_token m now = m.access_token ∧
    (get_access_token m now = none ↔ m.access_token = none) := by
  have h : get_access_token m now = m.access_token := by
    unfold get_access_token
    split
    · split <;> rfl
    · rfl
  exact ⟨h, by rw [h]⟩

/-- C7: `_save_token` updates the in-memory credential first and then mirrors
it to the store: the resulting memory does not depend on whether the file
write succeeds, a failed write leaves the old file and the new memory, and a
successful write stores exactly the new values. -/
theorem C7_memory_first_store_best_effort (m : Manager) (file : Option FileData)
    (now : Int) (tok : Option String) (exp : Int) (rt : Option String) :
    (save_token m file now tok exp rt false).1 = (save_token m file now tok exp rt true).1
    ∧ (save_token m file now tok exp rt false).1.access_token = tok
    ∧ (save_token m file now tok exp rt false).1.token_expires_at = some (now + exp)
    ∧ (save_token m file now tok exp rt false).2 = file
    ∧ (save_token m file now tok exp rt true).2 = some ⟨tok, some (now + exp), rt⟩ :=
  ⟨rfl, rfl, rfl, rfl, rfl⟩

/-- C8: store round-trip — after `save(token, 3600, refresh)` a fresh load
yields the same token and an expiry within one second of `now + 3600`, and
loading a missing, unreadable or malformed file yields the empty credential. -/
theorem C8_store_round_trip (m : Manager) (file : Option FileData) (now : Int)
    (tok : String) (rt : Option String) :
    (load_cached_token (save_token m file now (some tok) 3600 rt true).2).1 = some tok
    ∧ (∃ e, (load_cached_token (save_token m file now (some tok) 3600 rt true).2).2.1 = some e
        ∧ (e - (now + 3600)).natAbs ≤ 1)
    ∧ load_cached_token none = (none, none, none) :=
  ⟨rfl, ⟨now + 3600, rfl, by simp⟩, rfl⟩

/-- C1 counterexample: in the unconfigured state, `set_access_token` does not
fail with a NotConfigured condition — it succeeds and stores the token. -/
theorem C1_counterexample :
    is_configured mUnconfigured = false
    ∧ (set_access_token mUnconfigured none 1000 true "tok" 3600).1.access_token = some "tok"
    ∧ (set_access_token mUnconfigured none 1000 true "tok" 3600).2
        = some ⟨some "tok", some 4600, none⟩ := by
  decide

/-- C1 (amended): when unconfigured, no operation performs network I/O;
`get_authorization_url`, `exchange_code_for_token` and `start_local_oauth_flow`
fail fast with the NotConfigured error, `refresh_if_needed` is a silent no-op
signalling nothing, and `set_access_token` ignores configuration and stores
the token. -/
theorem C1_amended_unconfigured (m : Manager) (file : Option FileData)
    (now : Int) (writeOk : Bool) (port : Nat) (code tok : String) (exp : Int)
    (st : Option String) (netE : ExchangeNet) (netR : HttpResult) (ev : FlowEvent)
    (h : is_configured m = false) :
    get_authorization_url m st =
      .notConfigured "OAuth2 not configured. Set WHATSAPP_CLIENT_ID and WHATSAPP_CLIENT_SECRET"
    ∧ exchange_code_for_token m file now writeOk code netE =
        ⟨.raised "OAuth2 not configured", m, file, 0⟩
    ∧ start_local_oauth_flow m file now writeOk port ev netE =
        ⟨.raisedNotConfigured
           "OAuth2 not configured. Set WHATSAPP_CLIENT_ID and WHATSAPP_CLIENT_SECRET",
          m, file, true, 0⟩
    ∧ refresh_if_needed m file now writeOk netR = ⟨m, file, 0⟩
    ∧ (set_access_token m file now writeOk tok exp).1.access_token = some tok := by
  refine ⟨?_, ?_, ?_, ?_, rfl⟩
  · simp [get_authorization_url, h]
  · simp [exchange_code_for_token, h]
  · simp [start_local_oauth_flow, h]
  · unfold refresh_if_needed
    split
    · rfl
    · split
      · rfl
      · simp [h]

/-- Closed witness for C1 at a concrete unconfigured manager. -/
theorem C1_amended_witness :
    exchange_code_for_token mUnconfigured none 0 true "code"
        ⟨.ok ⟨some "t", some 3600, none⟩, .ok ⟨some "l", some 5184000, none⟩⟩ =
      ⟨.raised "OAuth2 not configured", mUnconfigured, none, 0⟩
    ∧ refresh_if_needed mUnconfigured none 0 true (.ok ⟨some "t", none, none⟩) =
        ⟨mUnconfigured, none, 0⟩ := by
  have h := C1_amended_unconfigured mUnconfigured none 0 true 8080 "code" "tok" 3600
    none ⟨.ok ⟨some "t", some 3600, none⟩, .ok ⟨some "l", some 5184000, none⟩⟩
    (.ok ⟨some "t", none, none⟩) .timeout (by decide)
  exact ⟨h.2.1, h.2.2.2.1⟩

/-- C2 counterexample: `exchange_code_for_token` raises to its caller on two
paths — in the unconfigured state it raises `ValueError` before the `try`,
and in the configured state a status error with an unprocessable body makes
the error handler itself raise past the sibling `except` clause. -/
theorem C2_counterexample :
    (exchange_code_for_token mUnconfigured none 5 false "abc"
        ⟨.ok ⟨some "short", some 3600, none⟩, .httpError "boom"⟩).outcome =
      .raised "OAuth2 not configured"
    ∧ (exchange_code_for_token mConfigured none 5 false "abc"
        ⟨.httpErrorBadBody "Expecting value: line 1 column 1 (char 0)",
          .exn "x"⟩).outcome =
      .raised "Expecting value: line 1 column 1 (char 0)" := by
  decide

/-- C2 (amended): for a configured manager, `exchange_code_for_token` returns
a discriminated success/failure result on every code-exchange outcome its
handlers can process — a successful response, a status error whose body the
handler can extract a message from, or any other exception — but it raises to
its caller when a status error carries an unprocessable body (the handler's
own exception escaping the sibling `except` clause), and in the unconfigured
state it raises the NotConfigured `ValueError` (see the counterexample). -/
theorem C2_amended_exchange_outcomes (m : Manager) (file : Option FileData)
    (now : Int) (writeOk : Bool) (code : String) (net : ExchangeNet)
    (hc : is_configured m = true) :
    (∀ body, net.step1 = .ok body →
      ∃ tok exp, (exchange_code_for_token m file now writeOk code net).outcome
        = .returned (.success tok exp))
    ∧ (∀ msg, net.step1 = .httpError msg →
      (exchange_code_for_token m file now writeOk code net).outcome
        = .returned (.failure msg))
    ∧ (∀ msg, net.step1 = .exn msg →
      (exchange_code_for_token m file now writeOk code net).outcome
        = .returned (.failure msg))
    ∧ (∀ msg, net.step1 = .httpErrorBadBody msg →
      (exchange_code_for_token m file now writeOk code net).outcome
        = .raised msg) := by
  refine ⟨?_, ?_, ?_, ?_⟩
  all_goals intro x hx
  all_goals unfold exchange_code_for_token
  all_goals rw [hc, hx]
  · exact ⟨_, _, rfl⟩
  · rfl
  · rfl
  · rfl

/-- Closed witness for C2 at a concrete configured manager, exercising a
returned failure, a returned success, and the escaping handler exception. -/
theorem C2_amended_witness :
    (exchange_code_for_token mConfigured none 0 true "abc"
        ⟨.httpError "bad code", .exn "x"⟩).outcome = .returned (.failure "bad code")
    ∧ (∃ tok exp, (exchange_code_for_token mConfigured none 0 true "abc"
        ⟨.ok ⟨some "short", some 3600, none⟩, .exn "x"⟩).outcome
        = .returned (.success tok exp))
    ∧ (exchange_code_for_token mConfigured none 0 true "abc"
        ⟨.httpErrorBadBody "bad body", .exn "x"⟩).outcome = .raised "bad body" :=
  ⟨(C2_amended_exchange_outcomes mConfigured none 0 true "abc"
      ⟨.httpError "bad code", .exn "x"⟩ (by decide)).2.1 "bad code" rfl,
   (C2_amended_exchange_outcomes mConfigured none 0 true "abc"
      ⟨.ok ⟨some "short", some 3600, none⟩, .exn "x"⟩ (by decide)).1
      ⟨some "short", some 3600, none⟩ rfl,
   (C2_amended_exchange_outcomes mConfigured none 0 true "abc"
      ⟨.httpErrorBadBody "bad body", .exn "x"⟩ (by decide)).2.2.2 "bad body" rfl⟩

/-- C3: for a configured manager holding a (truthy) token with expiry `e`,
`refresh_if_needed` attempts the exchange exactly when
`e - REFRESH_BUFFER_SECONDS ≤ now`; below the threshold, and when no token is
held, it is a no-op with no network call. -/
theorem C3_refresh_boundary (m : Manager) (file : Option FileData) (now : Int)
    (writeOk : Bool) (net : HttpResult) (hc : is_configured m = true) :
    (∀ e, truthyStr m.access_token = true → m.token_expires_at = some e → e ≠ 0 →
      (((refresh_if_needed m file now writeOk net).netCalls ≠ 0)
          ↔ e - REFRESH_BUFFER_SECONDS ≤ now)
      ∧ (now < e - REFRESH_BUFFER_SECONDS →
          refresh_if_needed m file now writeOk net = ⟨m, file, 0⟩))
    ∧ (m.access_token = none → refresh_if_needed m file now writeOk net = ⟨m, file, 0⟩) := by
  constructor
  · intro e ht he he0
    have hti : truthyInt m.token_expires_at = true := by
      rw [he]; simp [truthyInt, he0]
    by_cases hlt : now < e - REFRESH_BUFFER_SECONDS
    · have hres : refresh_if_needed m file now writeOk net = ⟨m, file, 0⟩ := by
        unfold refresh_if_needed
        rw [ht, hti, he]
        simp [hlt]
      refine ⟨?_, fun _ => hres⟩
      rw [hres]
      simp
      omega
    · have hge : e - REFRESH_BUFFER_SECONDS ≤ now := by omega
      refine ⟨?_, fun hcon => absurd hcon hlt⟩
      have hcalls : (refresh_if_needed m file now writeOk net).netCalls ≠ 0 := by
        unfold refresh_if_needed exchange_for_long_lived_token
        rw [ht, hti, he, hc]
        simp only [Bool.not_true, Bool.or_self, Bool.false_eq_true, if_false,
          Option.getD_some]
        rw [if_neg hlt]
        simp only [Bool.not_true, Bool.false_eq_true, if_false, if_true]
        cases net
        case ok body =>
          simp only
          split <;> simp
        case httpError msg => simp
        case httpErrorBadBody msg => simp
        case exn msg => simp
      simp [hcalls, hge]
  · intro hn
    unfold refresh_if_needed
    rw [hn]
    simp [truthyStr]

/-- Closed witness for C3 at both boundary instants: with expiry 50, at
`now = -86351` (one second inside the buffer boundary) the call is a no-op
with no network call, and at `now = -86349` (one second past it) a refresh is
attempted. -/
theorem C3_witness :
    refresh_if_needed mWithRefresh none (-86351) true (.ok ⟨some "new", none, none⟩)
        = ⟨mWithRefresh, none, 0⟩
    ∧ (refresh_if_needed mWithRefresh none (-86349) true
        (.ok ⟨some "new", none, none⟩)).netCalls ≠ 0 :=
  ⟨((C3_refresh_boundary mWithRefresh none (-86351) true
      (.ok ⟨some "new", none, none⟩) (by decide)).1 50 (by decide) (by decide)
      (by decide)).2 (by decide),
   ((C3_refresh_boundary mWithRefresh none (-86349) true
      (.ok ⟨some "new", none, none⟩) (by decide)).1 50 (by decide) (by decide)
      (by decide)).1.mpr (by decide)⟩

/-- C4: after a successful code exchange the long-lived upgrade is best
effort — an upgrade response carrying `access_token` and `expires_in`
supersedes the short-lived values in the stored credential, while any upgrade
failure still yields success with the short-lived values stored. -/
theorem C4_upgrade_best_effort (m : Manager) (file : Option FileData)
    (now : Int) (writeOk : Bool) (code : String) (body : TokenResponse)
    (hc : is_configured m = true) :
    (∀ u a e2, u.access_token = some a → u.expires_in = some e2 →
      (exchange_code_for_token m file now writeOk code ⟨.ok body, .ok u⟩).outcome
          = .returned (.success (some a) e2)
      ∧ (exchange_code_for_token m file now writeOk code
          ⟨.ok body, .ok u⟩).manager.access_token = some a
      ∧ (exchange_code_for_token m file now writeOk code
          ⟨.ok body, .ok u⟩).manager.token_expires_at = some (now + e2))
    ∧ (∀ s2, s2.isOk = false →
      (exchange_code_for_token m file now writeOk code ⟨.ok body, s2⟩).outcome
          = .returned (.success body.access_token (body.expires_in.getD 3600))
      ∧ (exchange_code_for_token m file now writeOk code
          ⟨.ok body, s2⟩).manager.access_token = body.access_token
      ∧ (exchange_code_for_token m file now writeOk code
          ⟨.ok body, s2⟩).manager.token_expires_at
          = some (now + body.expires_in.getD 3600)) := by
  constructor
  · intro u a e2 ha he2
    unfold exchange_code_for_token exchange_for_long_lived_token
    rw [hc]
    simp [ha, he2, save_token]
  · intro s2 hs2
    unfold exchange_code_for_token exchange_for_long_lived_token
    rw [hc]
    cases s2
    case ok b => simp [HttpResult.isOk] at hs2
    case httpError msg => simp [save_token]
    case httpErrorBadBody msg => simp [save_token]
    case exn msg => simp [save_token]

/-- Closed witness for C4: a provider issuing short token `"short"` for 3600s
and upgrade token `"long"` for 5184000s stores the upgraded values; with a
failing upgrade the result is still success and the short values are stored. -/
theorem C4_witness :
    (exchange_code_for_token mConfigured none 10 true "abc"
        ⟨.ok ⟨some "short", some 3600, none⟩, .ok ⟨some "long", some 5184000, none⟩⟩).outcome
      = .returned (.success (some "long") 5184000)
    ∧ (exchange_code_for_token mConfigured none 10 true "abc"
        ⟨.ok ⟨some "short", some 3600, none⟩, .ok ⟨some "long", some 5184000, none⟩⟩).manager.token_expires_at
      = some (10 + 5184000)
    ∧ (exchange_code_for_token mConfigured none 10 true "abc"
        ⟨.ok ⟨some "short", some 3600, none⟩, .httpError "upgrade down"⟩).outcome
      = .returned (.success (some "short") 3600)
    ∧ (exchange_code_for_token mConfigured none 10 true "abc"
        ⟨.ok ⟨some "short", some 3600, none⟩, .httpError "upgrade down"⟩).manager.token_expires_at
      = some (10 + 3600) := by
  have h := C4_upgrade_best_effort mConfigured none 10 true "abc"
    ⟨some "short", some 3600, none⟩ (by decide)
  have ha := h.1 ⟨some "long", some 5184000, none⟩ "long" 5184000 rfl rfl
  have hb := h.2 (.httpError "upgrade down") (by decide)
  exact ⟨ha.1, ha.2.2, hb.1, hb.2.2⟩

/-- C5 counterexample: on the refresh-token-keyed path (`refresh_token`), a
provider response omitting `expires_in` is defaulted to 3600 seconds, not
5,184,000. -/
theorem C5_counterexample :
    (refresh_token_op mWithRefresh none 1000 true
        (.ok ⟨some "new", none, none⟩)).manager.token_expires_at = some (1000 + 3600)
    ∧ (1000 + 3600 : Int) ≠ 1000 + 5184000 := by
  decide

/-- C5 (amended): when the provider omits `expires_in`, the refresh performed
by `refresh_if_needed` (keyed off the current access token) defaults it to
5,184,000 seconds, but the refresh-token-keyed path (`refresh_token`)
defaults it to 3,600 seconds. -/
theorem C5_amended_expiry_defaults (m : Manager) (file : Option FileData)
    (now e : Int) (writeOk : Bool) (t : String) (rt : Option String) :
    (is_configured m = true → truthyStr m.access_token = true →
      m.token_expires_at = some e → e ≠ 0 → e - REFRESH_BUFFER_SECONDS ≤ now →
      ¬ t.isEmpty →
      (refresh_if_needed m file now writeOk
          (.ok ⟨some t, none, rt⟩)).manager.token_expires_at = some (now + 5184000))
    ∧ (truthyStr m.refresh_token = true →
      (refresh_token_op m file now writeOk
          (.ok ⟨some t, none, rt⟩)).manager.token_expires_at = some (now + 3600)) := by
  constructor
  · intro hc ht he he0 hle hne
    have hti : truthyInt m.token_expires_at = true := by
      rw [he]; simp [truthyInt, he0]
    have hnlt : ¬ now < e - REFRESH_BUFFER_SECONDS := by omega
    unfold refresh_if_needed exchange_for_long_lived_token
    rw [ht, hti, he, hc]
    simp only [Bool.not_true, Bool.or_self, Bool.false_eq_true, if_false,
      Option.getD_some, if_true]
    rw [if_neg hnlt]
    simp [truthyStr, hne, save_token]
  · intro hrt
    unfold refresh_token_op
    rw [hrt]
    simp [save_token]

/-- Closed witness for C5 at a concrete manager exercising both defaulting
paths with a response that omits `expires_in`. -/
theorem C5_amended_witness :
    (refresh_if_needed mWithRefresh none 50 true
        (.ok ⟨some "new", none, none⟩)).manager.token_expires_at = some (50 + 5184000)
    ∧ (refresh_token_op mWithRefresh none 50 true
        (.ok ⟨some "new", none, none⟩)).manager.token_expires_at = some (50 + 3600) := by
  have h := C5_amended_expiry_defaults mWithRefresh none 50 50 true "new" none
  exact ⟨h.1 (by decide) (by decide) (by decide) (by decide) (by decide) (by decide),
    h.2 (by decide)⟩

/-- C9 counterexample: on the 300-second timeout exit of
`start_local_oauth_flow` the listener is shut down but the configured
`redirect_uri` is left at the local-callback override instead of being
restored to its original value. -/
theorem C9_counterexample :
    mConfigured.redirect_uri = "http://example.com/cb"
    ∧ (start_local_oauth_flow mConfigured none 0 true 8080 .timeout
        ⟨.ok ⟨some "s", some 3600, none⟩, .ok ⟨some "l", none, none⟩⟩).listenerStopped = true
    ∧ (start_local_oauth_flow mConfigured none 0 true 8080 .timeout
        ⟨.ok ⟨some "s", some 3600, none⟩, .ok ⟨some "l", none, none⟩⟩).manager.redirect_uri
        = "http://localhost:8080/callback"
    ∧ "http://localhost:8080/callback" ≠ "http://example.com/cb" := by
  decide

/-- Helper: `exchange_code_for_token` never changes `redirect_uri` — its
state either stays put or goes through `_save_token`, which only touches the
three token attributes. -/
theorem exchange_preserves_redirect (m : Manager) (file : Option FileData)
    (now : Int) (writeOk : Bool) (code : String) (net : ExchangeNet) :
    (exchange_code_for_token m file now writeOk code net).manager.redirect_uri
      = m.redirect_uri := by
  unfold exchange_code_for_token
  cases hc : is_configured m
  · rfl
  · cases h1 : net.step1
    case ok body => rfl
    case httpError msg => rfl
    case httpErrorBadBody msg => rfl
    case exn msg => rfl

/-- C9 (amended): the listener is shut down on every exit path of
`start_local_oauth_flow`, but the original `redirect_uri` is restored only on
the code-received runs whose exchange returns a result (success or exchange
failure); the timeout and missing-code exits, and a code-received run whose
exchange raises (the status-error handler's own exception on an unprocessable
error body), leave the local-callback override in place. -/
theorem C9_amended_flow_teardown (m : Manager) (file : Option FileData)
    (now : Int) (writeOk : Bool) (port : Nat) (net : ExchangeNet)
    (hc : is_configured m = true) :
    (∀ ev, (start_local_oauth_flow m file now writeOk port ev net).listenerStopped = true)
    ∧ (start_local_oauth_flow m file now writeOk port .timeout net).manager.redirect_uri
        = localCallbackUri port
    ∧ (start_local_oauth_flow m file now writeOk port .missingCode net).manager.redirect_uri
        = localCallbackUri port
    ∧ (∀ code r, (exchange_code_for_token { m with redirect_uri := localCallbackUri port }
          file now writeOk code net).outcome = .returned r →
        (start_local_oauth_flow m file now writeOk port
          (.codeReceived code) net).manager.redirect_uri = m.redirect_uri)
    ∧ (∀ code msg, (exchange_code_for_token { m with redirect_uri := localCallbackUri port }
          file now writeOk code net).outcome = .raised msg →
        (start_local_oauth_flow m file now writeOk port
          (.codeReceived code) net).manager.redirect_uri = localCallbackUri port) := by
  refine ⟨?_, ?_, ?_, ?_, ?_⟩
  · intro ev
    unfold start_local_oauth_flow
    rw [hc]
    cases ev
    case timeout => rfl
    case missingCode => rfl
    case codeReceived code =>
      simp only [if_true]
      split <;> rfl
  · unfold start_local_oauth_flow
    rw [hc]
    rfl
  · unfold start_local_oauth_flow
    rw [hc]
    rfl
  · intro code r hr
    unfold start_local_oauth_flow
    rw [hc]
    rcases hx : exchange_code_for_token { m with redirect_uri := localCallbackUri port }
        file now writeOk code net with ⟨o, mm, ff, c⟩
    have ho : o = .returned r := by rw [hx] at hr; exact hr
    simp only [if_true, hx, ho]
    cases r
    case success a e => rfl
    case failure err => rfl
  · intro code msg hr
    unfold start_local_oauth_flow
    rw [hc]
    have hru := exchange_preserves_redirect
      { m with redirect_uri := localCallbackUri port } file now writeOk code net
    rcases hx : exchange_code_for_token { m with redirect_uri := localCallbackUri port }
        file now writeOk code net with ⟨o, mm, ff, c⟩
    have ho : o = .raised msg := by rw [hx] at hr; exact hr
    rw [hx] at hru
    simp only [if_true, hx, ho]
    exact hru

/-- Closed witness for C9 at a concrete configured manager: the timeout exit
keeps the override, a code-received exit whose exchange returns restores the
original value, a code-received exit whose exchange raises keeps the
override, and the listener is stopped. -/
theorem C9_amended_witness :
    (start_local_oauth_flow mConfigured none 0 true 9090 .timeout
        ⟨.httpError "down", .exn "x"⟩).manager.redirect_uri = localCallbackUri 9090
    ∧ (start_local_oauth_flow mConfigured none 0 true 9090 (.codeReceived "abc")
        ⟨.httpError "down", .exn "x"⟩).manager.redirect_uri = "http://example.com/cb"
    ∧ (start_local_oauth_flow mConfigured none 0 true 9090 (.codeReceived "abc")
        ⟨.httpErrorBadBody "bad body", .exn "x"⟩).manager.redirect_uri
        = localCallbackUri 9090
    ∧ (start_local_oauth_flow mConfigured none 0 true 9090 .timeout
        ⟨.httpError "down", .exn "x"⟩).listenerStopped = true := by
  have h1 := C9_amended_flow_teardown mConfigured none 0 true 9090
    ⟨.httpError "down", .exn "x"⟩ (by decide)
  have h2 := C9_amended_flow_teardown mConfigured none 0 true 9090
    ⟨.httpErrorBadBody "bad body", .exn "x"⟩ (by decide)
  exact ⟨h1.2.1, h1.2.2.2.1 "abc" (.failure "down") (by decide),
    h2.2.2.2.2 "abc" "bad body" (by decide), h1.1 .timeout⟩

/-- Helper: `_save_token` always establishes the combined invariant, whatever
it is given, as long as the incoming file satisfied the file invariant. -/
theorem sysInv_save (m : Manager) (file : Option FileData) (now : Int)
    (tok : Option String) (exp : Int) (rt : Option String) (writeOk : Bool)
    (hf : FileInv file) : SysInv (save_token m file now tok exp rt writeOk) := by
  constructor
  · intro _
    simp [save_token]
  · intro d hd
    unfold save_token at hd
    cases writeOk
    · exact hf d hd
    · simp only [if_true] at hd
      cases hd
      rfl

/-- Helper: `exchange_code_for_token` either leaves the state unchanged or
ends in a `_save_token`. -/
theorem exchange_state_cases (m : Manager) (file : Option FileData) (now : Int)
    (writeOk : Bool) (code : String) (net : ExchangeNet) :
    ((exchange_code_for_token m file now writeOk code net).manager,
     (exchange_code_for_token m file now writeOk code net).file) = (m, file)
    ∨ ∃ tok exp rt, ((exchange_code_for_token m file now writeOk code net).manager,
        (exchange_code_for_token m file now writeOk code net).file)
        = save_token m file now tok exp rt writeOk := by
  unfold exchange_code_for_token
  cases hc : is_configured m
  · left; rfl
  · cases h1 : net.step1
    case ok body => right; exact ⟨_, _, _, rfl⟩
    case httpError msg => left; rfl
    case httpErrorBadBody msg => left; rfl
    case exn msg => left; rfl

/-- Helper: `refresh_if_needed` either leaves the state unchanged or ends in
a `_save_token`. -/
theorem refresh_state_cases (m : Manager) (file : Option FileData) (now : Int)
    (writeOk : Bool) (net : HttpResult) :
    ((refresh_if_needed m file now writeOk net).manager,
     (refresh_if_needed m file now writeOk net).file) = (m, file)
    ∨ ∃ tok exp rt, ((refresh_if_needed m file now writeOk net).manager,
        (refresh_if_needed m file now writeOk net).file)
        = save_token m file now tok exp rt writeOk := by
  unfold refresh_if_needed
  split
  · left; rfl
  · split
    · left; rfl
    · split
      · left; rfl
      · split
        · split
          · right; exact ⟨_, _, _, rfl⟩
          · left; rfl
        · left; rfl

/-- Helper: `refresh_token` either leaves the state unchanged or ends in a
`_save_token`. -/
theorem refreshTok_state_cases (m : Manager) (file : Option FileData)
    (now : Int) (writeOk : Bool) (net : HttpResult) :
    ((refresh_token_op m file now writeOk net).manager,
     (refresh_token_op m file now writeOk net).file) = (m, file)
    ∨ ∃ tok exp rt, ((refresh_token_op m file now writeOk net).manager,
        (refresh_token_op m file now writeOk net).file)
        = save_token m file now tok exp rt writeOk := by
  unfold refresh_token_op
  split
  · cases net
    case ok body => right; exact ⟨_, _, _, rfl⟩
    case httpError msg => left; rfl
    case httpErrorBadBody msg => left; rfl
    case exn msg => left; rfl
  · left; rfl

/-- Helper: one exchange run from any invariant state lands in an invariant
state. -/
theorem sysInv_exchange (m : Manager) (file : Option FileData) (now : Int)
    (writeOk : Bool) (code : String) (net : ExchangeNet)
    (hs : SysInv (m, file)) :
    SysInv ((exchange_code_for_token m file now writeOk code net).manager,
            (exchange_code_for_token m file now writeOk code net).file) := by
  rcases exchange_state_cases m file now writeOk code net with h | ⟨tok, exp, rt, h⟩
  · rw [h]; exact hs
  · rw [h]; exact sysInv_save m file now tok exp rt writeOk hs.2

/-- Helper: one interactive-flow run from any invariant state lands in an
invariant state. -/
theorem sysInv_flow (m : Manager) (file : Option FileData) (now : Int)
    (writeOk : Bool) (port : Nat) (ev : FlowEvent) (net : ExchangeNet)
    (hs : SysInv (m, file)) :
    SysInv ((start_local_oauth_flow m file now writeOk port ev net).manager,
            (start_local_oauth_flow m file now writeOk port ev net).file) := by
  unfold start_local_oauth_flow
  cases hc : is_configured m
  · exact hs
  · cases ev
    case timeout => exact ⟨hs.1, hs.2⟩
    case missingCode => exact ⟨hs.1, hs.2⟩
    case codeReceived code =>
      have he := sysInv_exchange { m with redirect_uri := localCallbackUri port }
        file now writeOk code net ⟨hs.1, hs.2⟩
      rcases hx : exchange_code_for_token { m with redirect_uri := localCallbackUri port }
          file now writeOk code net with ⟨o, mm, ff, c⟩
      rw [hx] at he
      simp only [if_true, hx]
      cases o
      case raised msg => exact ⟨he.1, he.2⟩
      case returned v =>
        cases v
        case success a e => exact ⟨he.1, he.2⟩
        case failure err => exact ⟨he.1, he.2⟩

/-- Helper: every lifecycle operation preserves the combined invariant. -/
theorem step_preserves {s t : Manager × Option FileData} (h : Step s t)
    (hs : SysInv s) : SysInv t := by
  cases h with
  | construct cid csec ruri scps =>
    refine ⟨?_, hs.2⟩
    intro ht
    cases hf : s.2
    case none =>
      rw [hf] at ht
      simp [mkManager, load_cached_token] at ht
    case some d =>
      simpa [mkManager, load_cached_token] using hs.2 d hf
  | utilsReload =>
    refine ⟨?_, hs.2⟩
    intro ht
    unfold utils_reload_from_file at ht ⊢
    cases hf : s.2
    case none =>
      rw [hf] at ht
      exact hs.1 ht
    case some d =>
      rw [hf] at ht
      by_cases htr : truthyStr d.access_token = true
      · simpa [htr] using hs.2 d hf
      · simp only [Bool.not_eq_true] at htr
        simp only [htr, Bool.false_eq_true, if_false] at ht ⊢
        exact hs.1 ht
  | exchange now writeOk code net =>
    exact sysInv_exchange s.1 s.2 now writeOk code net hs
  | refresh now writeOk net =>
    rcases refresh_state_cases s.1 s.2 now writeOk net with h | ⟨tok, exp, rt, h⟩
    · rw [h]; exact hs
    · rw [h]; exact sysInv_save s.1 s.2 now tok exp rt writeOk hs.2
  | refreshTok now writeOk net =>
    rcases refreshTok_state_cases s.1 s.2 now writeOk net with h | ⟨tok, exp, rt, h⟩
    · rw [h]; exact hs
    · rw [h]; exact sysInv_save s.1 s.2 now tok exp rt writeOk hs.2
  | setTok now writeOk token expires_in =>
    exact sysInv_save s.1 s.2 now (some token) expires_in none writeOk hs.2
  | clear removeOk =>
    have hfc : (clear_token s.1 s.2 removeOk).2 = none
        ∨ (clear_token s.1 s.2 removeOk).2 = s.2 := by
      unfold clear_token
      cases hf : s.2
      case none => left; rfl
      case some d0 =>
        cases removeOk
        case false => right; rfl
        case true => left; rfl
    constructor
    · intro ht
      simp [clear_token] at ht
    · intro d hd
      rcases hfc with h | h
      · rw [h] at hd; cases hd
      · rw [h] at hd; exact hs.2 d hd
  | flow now writeOk port ev net =>
    exact sysInv_flow s.1 s.2 now writeOk port ev net hs

/-- C6: in every state the closed system can reach — across construction with
cache load, saves, exchanges, refreshes, external set, clear and the
interactive flow — an in-memory `access_token` present implies a matching
`expires_at` present. -/
theorem C6_token_implies_expiry (s : Manager × Option FileData)
    (h : ReachableState s) :
    s.1.access_token.isSome = true → s.1.token_expires_at.isSome = true := by
  obtain ⟨s0, h0, hsteps⟩ := h
  have h00 : SysInv s0 := by
    constructor
    · intro ht
      rw [h0.1] at ht
      simp at ht
    · intro d hd
      rw [h0.2.2] at hd
      simp at hd
  have hinv : SysInv s := by
    clear h0
    induction hsteps with
    | refl => exact h00
    | tail _ hstep ih => exact step_preserves hstep ih
  exact hinv.1

/-- Closed witness for C6: a concrete reachable state (one `set_access_token`
after a cold construction) holds a token, and the theorem yields its expiry. -/
theorem C6_witness : ReachableState s1c ∧ s1c.1.token_expires_at.isSome = true := by
  have hreach : ReachableState s1c :=
    ⟨(mkManager (some "id") (some "sec") "u" "s" none, none),
     ⟨rfl, rfl, rfl⟩,
     Relation.ReflTransGen.single
       (Step.setTok (mkManager (some "id") (some "sec") "u" "s" none, none)
         0 true "tok" 3600)⟩
  exact ⟨hreach, C6_token_implies_expiry s1c hreach (by decide)⟩
